import Mathlib

/-!
Verification of the checkinbot repository (Hive Ecuador check-in bot).

This file shallowly embeds the decision core of `src/main.py` and
`src/main_advanced.py`: the post-validation engine (`validate_post`),
the disbursement gate (`can_send_transfer_today` plus the balance check
inside `send_hbd_transfer`), the persistence operations of
`DatabaseManager` (`record_processed_post`, `update_daily_stats`,
`is_post_processed`), the per-post processor (`process_post`) of both
bot variants, and the dedupe filter of `monitor_community`.

Modelling conventions:
* Python dicts are projected onto the fields the code actually consults;
  optional dict keys become `Option` values.
* `json_metadata` may arrive as an in-memory mapping or as a string that
  must be JSON-parsed once; the parse outcome of a string blob is part of
  the input (`MetadataSrc.text (parsed : Option Metadata)`), standing in
  for `json.loads`.
* Monetary amounts (Python floats) are modelled as rationals; counters as
  naturals.  SQLite `INSERT OR REPLACE` on a keyed table is modelled as
  filter-out-the-key then append.
* External effects (blockchain comment/transfer/vote broadcasts and the
  balance lookup) are an oracle `ActionEnv` giving each attempt's outcome,
  matching the Action Executor / Balance Oracle interface boundary.
* Python in-place mutation of the aliased beneficiary list inside
  `validate_post` (main.py) is made explicit: `validatePost` returns the
  post as it stands after the call alongside the validation result.
-/

set_option maxRecDepth 100000

namespace Checkinbot

/-- A beneficiary entry: the Python dict `{"account": ..., "weight": ...}`.
Both keys are read with `dict.get`, so each may be absent. -/
structure Beneficiary where
  account : Option String
  weight : Option Int
deriving DecidableEq, Repr

/-- The parsed `json_metadata` mapping, projected onto the keys the
validator consults.  `extra` carries any further keys as
(key, truthiness-of-value) pairs, which is all `validate_post` ever asks
of them (the `required_fields` loop tests `field in json_metadata` and
`bool(json_metadata[field])`). -/
structure Metadata where
  app : Option String
  developer : Option String
  tags : Option (List String)
  beneficiaries : Option (List Beneficiary)
  country : Option String
  extra : List (String × Bool)
deriving DecidableEq, Repr

/-- How `post['json_metadata']` arrives: already a mapping, or a string
blob whose one JSON parse either succeeds (`text (some m)`) or raises
`json.JSONDecodeError` (`text none`). -/
inductive MetadataSrc where
  | inline (m : Metadata)
  | text (parsed : Option Metadata)
deriving DecidableEq, Repr

/-- One entry of `post['extensions']`.  `entry tag payload` models a list
`[tag, d]` of length at least two whose second element is a dict; `payload`
is `some bs` when that dict has a `beneficiaries` key holding `bs`.
`malformed` covers every other shape (not a list, too short, second
element not a dict). -/
inductive Extension where
  | entry (tag : Int) (payload : Option (List Beneficiary))
  | malformed
deriving DecidableEq, Repr

/-- Beneficiaries contributed by one extension entry: the loop in
`validate_post` (main.py) accepts `ext` only when it is a list of length
at least 2 with `ext[0] == 0` and `ext[1]` a dict containing
`beneficiaries`. -/
def extBeneficiaries (e : Extension) : List Beneficiary :=
  match e with
  | .entry t (some bs) => if t = 0 then bs else []
  | _ => []

/-- The candidate-post dict built by `monitor_community` (main.py):
author, permlink, title, body, created, json_metadata, extensions and the
direct beneficiaries field.  `created` is the post's creation time as
epoch seconds (the result of `datetime.strptime` on the feed's string). -/
structure Post where
  author : String
  permlink : String
  title : String
  body : String
  created : Int
  json_metadata : MetadataSrc
  extensions : List Extension
  beneficiaries : List Beneficiary
deriving DecidableEq, Repr

/-- The `required_metadata` section of the configuration.  String-valued
requirements are `Option String` (absent key = `none`); note that a
present-but-empty string is `some ""`, which Python treats as falsy in
the guards `if required_app and ...`. -/
structure Requirements where
  app : Option String
  developer : Option String
  tags : List String
  beneficiaries : List Beneficiary
  country : Option String
  required_fields : List String
deriving DecidableEq, Repr

/-- The `PostValidation` dataclass. -/
structure PostValidation where
  is_valid : Bool
  reasons : List String
  post_data : Post
deriving DecidableEq, Repr

/-- Rendering of an optional string for reason messages (Python prints
`None` for a missing key). -/
def showOptStr : Option String → String
  | none => "None"
  | some s => s

/-- Rendering of an optional integer for reason messages. -/
def showOptInt : Option Int → String
  | none => "None"
  | some n => toString n

/-- Rendering of a beneficiary pair for the missing-beneficiary reason. -/
def showBeneficiary (b : Beneficiary) : String :=
  "account=" ++ showOptStr b.account ++ " weight=" ++ showOptInt b.weight

/-- Python truthiness of an optional string value: present and non-empty. -/
def truthyStr : Option String → Bool
  | none => false
  | some s => s != ""

/-- Python truthiness of an optional list value: present and non-empty. -/
def truthyList {α : Type} : Option (List α) → Bool
  | none => false
  | some l => !l.isEmpty

/-- `field in json_metadata and bool(json_metadata[field])` for a
metadata key, i.e. the key is present with a truthy value. -/
def Metadata.hasTruthy (m : Metadata) (k : String) : Bool :=
  if k = "app" then truthyStr m.app
  else if k = "developer" then truthyStr m.developer
  else if k = "tags" then truthyList m.tags
  else if k = "beneficiaries" then truthyList m.beneficiaries
  else if k = "country" then truthyStr m.country
  else ((m.extra.lookup k).getD false)

/-- The app check of `validate_post`:
`if required_app and json_metadata.get('app') != required_app`. -/
def checkApp (req : Requirements) (m : Metadata) : List String :=
  match req.app with
  | none => []
  | some a =>
    if a != "" && m.app != some a then
      ["App mismatch: expected " ++ a ++ ", got " ++ showOptStr m.app]
    else []

/-- The developer check of `validate_post`. -/
def checkDeveloper (req : Requirements) (m : Metadata) : List String :=
  match req.developer with
  | none => []
  | some d =>
    if d != "" && m.developer != some d then
      ["Developer mismatch: expected " ++ d ++ ", got " ++ showOptStr m.developer]
    else []

/-- The country check of `validate_post`. -/
def checkCountry (req : Requirements) (m : Metadata) : List String :=
  match req.country with
  | none => []
  | some c =>
    if c != "" && m.country != some c then
      ["Country mismatch: expected " ++ c ++ ", got " ++ showOptStr m.country]
    else []

/-- `[tag for tag in required_tags if tag not in post_tags]`. -/
def missingTags (required postTags : List String) : List String :=
  required.filter (fun t => !(postTags.contains t))

/-- The tag check of `validate_post`: all missing tags are reported
together as a single reason. -/
def checkTags (req : Requirements) (m : Metadata) : List String :=
  let mt := missingTags req.tags (m.tags.getD [])
  if mt.isEmpty then []
  else ["Missing required tags: " ++ String.intercalate ", " mt]

/-- Exact equality of account and weight, as in the inner beneficiary
loop of `validate_post`. -/
def beneficiaryMatches (postBen reqBen : Beneficiary) : Bool :=
  postBen.account == reqBen.account && postBen.weight == reqBen.weight

/-- Required beneficiaries that have no exact match in the merged list. -/
def missingBeneficiaries (required merged : List Beneficiary) : List Beneficiary :=
  required.filter (fun rb => !(merged.any (fun pb => beneficiaryMatches pb rb)))

/-- The beneficiary check of `validate_post`: one reason per missing
required pair, in requirement order. -/
def checkBeneficiaries (required merged : List Beneficiary) : List String :=
  (missingBeneficiaries required merged).map
    (fun rb => "Missing beneficiary: " ++ showBeneficiary rb)

/-- The required-fields check of `validate_post`: each absent or falsy
field is its own reason. -/
def checkRequiredFields (req : Requirements) (m : Metadata) : List String :=
  req.required_fields.filterMap (fun f =>
    if m.hasTruthy f then none else some ("Missing required field: " ++ f))

/-- The body-length check of `validate_post`:
`if len(post.get('body', '')) < 100`. -/
def checkBody (post : Post) : List String :=
  if post.body.length < 100 then ["Post body too short for introduction"]
  else []

/-- The merged beneficiary list of `validate_post` (main.py): the list
from the parsed metadata, extended by the direct `beneficiaries` field,
extended by every qualifying extension entry, in that order. -/
def mergedBeneficiaries (post : Post) (m : Metadata) : List Beneficiary :=
  (m.beneficiaries.getD []) ++ post.beneficiaries
    ++ (post.extensions.map extBeneficiaries).flatten

/-- All reasons collected by `validate_post` (main.py) once the metadata
has parsed, in source order: app, developer, tags, beneficiaries,
country, required fields, body length. -/
def reasonsFor (req : Requirements) (post : Post) (m : Metadata) : List String :=
  checkApp req m ++ checkDeveloper req m ++ checkTags req m
    ++ checkBeneficiaries req.beneficiaries (mergedBeneficiaries post m)
    ++ checkCountry req m ++ checkRequiredFields req m ++ checkBody post

/-- `HiveEcuadorBot.validate_post` of main.py.  The first component is
the returned `PostValidation`; the second is the post object as it stands
after the call.  When the metadata arrives as an in-memory mapping that
already contains a `beneficiaries` key, the two `post_beneficiaries.extend`
calls operate on the very list object stored in the post's metadata
(`json_metadata.get('beneficiaries', [])` aliases it), so the post is
mutated to hold the merged list; in every other case the merge happens on
a fresh list and the post is unchanged.  A string blob that fails to
parse yields the single reason and skips every other check. -/
def validatePost (req : Requirements) (post : Post) : PostValidation × Post :=
  match post.json_metadata with
  | .text none => (⟨false, ["Invalid JSON metadata"], post⟩, post)
  | .text (some m) =>
    let rs := reasonsFor req post m
    (⟨rs.isEmpty, rs, post⟩, post)
  | .inline m =>
    let rs := reasonsFor req post m
    let m2 : Metadata := { m with beneficiaries := some (mergedBeneficiaries post m) }
    let post2 :=
      if m.beneficiaries.isSome then { post with json_metadata := MetadataSrc.inline m2 }
      else post
    (⟨rs.isEmpty, rs, post2⟩, post2)

/-- All reasons collected by `validate_post` of main_advanced.py: same
checks and order, but the beneficiary check consults only the parsed
metadata's own list (no direct field, no extensions). -/
def reasonsForAdv (req : Requirements) (post : Post) (m : Metadata) : List String :=
  checkApp req m ++ checkDeveloper req m ++ checkTags req m
    ++ checkBeneficiaries req.beneficiaries (m.beneficiaries.getD [])
    ++ checkCountry req m ++ checkRequiredFields req m ++ checkBody post

/-- `HiveEcuadorBot.validate_post` of main_advanced.py.  It never extends
any list taken from the post, so it has no mutation to model. -/
def validatePostAdv (req : Requirements) (post : Post) : PostValidation :=
  match post.json_metadata with
  | .text none => ⟨false, ["Invalid JSON metadata"], post⟩
  | .text (some m) =>
    let rs := reasonsForAdv req post m
    ⟨rs.isEmpty, rs, post⟩
  | .inline m =>
    let rs := reasonsForAdv req post m
    ⟨rs.isEmpty, rs, post⟩

/-- The parse step applied to `post['json_metadata']`: an in-memory
mapping is used as is, a string blob contributes its parse result. -/
def parsedMetadata : MetadataSrc → Option Metadata
  | .inline m => some m
  | .text p => p

/-- A row of the `processed_posts` table (minus the autoincrement id and
write timestamp, which no decision logic reads). -/
structure ProcRow where
  author : String
  permlink : String
  hbd_sent : ℚ
  upvoted : Bool
  commented : Bool
deriving DecidableEq, Repr

/-- A row of the `daily_stats` table, keyed by date. -/
structure StatsRow where
  posts_processed : Nat
  hbd_sent : ℚ
  upvotes_given : Nat
  errors : Nat
deriving DecidableEq, Repr

/-- A row of the `daily_transfers` table, keyed by date. -/
structure TransferRow where
  transfer_count : Nat
  total_amount : ℚ
deriving DecidableEq, Repr

/-- The SQLite database managed by `DatabaseManager`: the three tables,
with the two date-keyed tables as association lists on their primary
key. -/
structure DB where
  processed : List ProcRow
  stats : List (String × StatsRow)
  transfers : List (String × TransferRow)
deriving DecidableEq, Repr

/-- First row with the given primary key, as a SELECT on a keyed table. -/
def getRow {β : Type} (k : String) : List (String × β) → Option β
  | [] => none
  | kv :: rest => if kv.1 == k then some kv.2 else getRow k rest

/-- `INSERT OR REPLACE` on a table whose primary key is the date: SQLite
deletes any row with the conflicting key and inserts the new one. -/
def setRow {β : Type} (k : String) (v : β) (l : List (String × β)) : List (String × β) :=
  l.filter (fun kv => kv.1 != k) ++ [(k, v)]

/-- Whether a processed-posts row has the given `(author, permlink)` key. -/
def keyMatches (author permlink : String) (r : ProcRow) : Bool :=
  r.author == author && r.permlink == permlink

/-- `DatabaseManager.is_post_processed`: `COUNT(*) > 0` on the key. -/
def isPostProcessed (db : DB) (author permlink : String) : Bool :=
  db.processed.any (keyMatches author permlink)

/-- Today's `transfer_count`: `result[0] if result else 0` in
`can_send_transfer_today`. -/
def transferCount (db : DB) (today : String) : Nat :=
  match getRow today db.transfers with
  | some t => t.transfer_count
  | none => 0

/-- `DatabaseManager.can_send_transfer_today`:
`current_count < max_daily_transfers`. -/
def canSendTransferToday (db : DB) (today : String) (maxDailyTransfers : Nat) : Bool :=
  transferCount db today < maxDailyTransfers

/-- `DatabaseManager.record_processed_post`: `INSERT OR REPLACE` under
the `UNIQUE(author, permlink)` constraint — any existing row with the
same key is deleted and the new row inserted. -/
def recordProcessedPost (db : DB) (author permlink : String) (hbd : ℚ)
    (upvoted commented : Bool) : DB :=
  { db with processed :=
      db.processed.filter (fun r => !(keyMatches author permlink r))
        ++ [⟨author, permlink, hbd, upvoted, commented⟩] }

/-- Componentwise addition of a delta onto a `daily_stats` row. -/
def addStats (s : StatsRow) (pp : Nat) (hbd : ℚ) (upv errs : Nat) : StatsRow :=
  ⟨s.posts_processed + pp, s.hbd_sent + hbd, s.upvotes_given + upv, s.errors + errs⟩

/-- `DatabaseManager.update_daily_stats`: both statements are
`INSERT OR REPLACE` whose VALUES add each delta onto
`COALESCE((SELECT ...), 0)`, so an absent row starts from zero; the
`daily_transfers` row gains `1 if hbd_sent > 0 else 0` transfers and the
transferred amount. -/
def updateDailyStats (db : DB) (today : String) (pp : Nat) (hbd : ℚ)
    (upv errs : Nat) : DB :=
  let s := (getRow today db.stats).getD ⟨0, 0, 0, 0⟩
  let t := (getRow today db.transfers).getD ⟨0, 0⟩
  { db with
    stats := setRow today (addStats s pp hbd upv errs) db.stats,
    transfers := setRow today
      ⟨t.transfer_count + (if 0 < hbd then 1 else 0), t.total_amount + hbd⟩
      db.transfers }

/-- The `daily_stats` row for a date as the counters read it (an absent
row reads as all zeroes, matching the COALESCE defaults). -/
def statsOf (db : DB) (d : String) : StatsRow :=
  (getRow d db.stats).getD ⟨0, 0, 0, 0⟩

/-- The `daily_transfers` row for a date, absent reading as zeroes. -/
def transferOf (db : DB) (d : String) : TransferRow :=
  (getRow d db.transfers).getD ⟨0, 0⟩

/-- The configuration fields the processing core reads. -/
structure Config where
  dry_run : Bool
  max_daily_transfers : Nat
  min_account_balance : ℚ
  transfer_amount : ℚ
  required_metadata : Requirements
deriving DecidableEq, Repr

/-- Outcomes supplied by the external collaborators for one post's
processing: what each broadcast attempt would report (a missing
blockchain library simulates success, so that case is `true`), and the
balance the oracle returns. -/
structure ActionEnv where
  commentOk : Bool
  transferOk : Bool
  upvoteOk : Bool
  balance : ℚ
deriving DecidableEq, Repr

/-- `HiveEcuadorBot.send_welcome_comment`: dry-run returns success at
once; otherwise the broadcast outcome decides. -/
def sendWelcomeComment (cfg : Config) (env : ActionEnv) : Bool :=
  if cfg.dry_run then true else env.commentOk

/-- `HiveEcuadorBot.send_hbd_transfer`: dry-run returns success before
any check; otherwise the daily-cap gate, then the minimum-balance gate,
then the broadcast outcome. -/
def sendHbdTransfer (cfg : Config) (env : ActionEnv) (db : DB) (today : String) : Bool :=
  if cfg.dry_run then true
  else if !(canSendTransferToday db today cfg.max_daily_transfers) then false
  else if env.balance < cfg.min_account_balance then false
  else env.transferOk

/-- The two-gate disbursement decision of `send_hbd_transfer` (non-dry
path, before the broadcast): the daily-cap check followed by the
minimum-balance check. -/
def mayTransfer (db : DB) (today : String) (cap : Nat) (balance minBalance : ℚ) : Bool :=
  if !(canSendTransferToday db today cap) then false
  else if balance < minBalance then false
  else true

/-- `HiveEcuadorBot.upvote_post`: dry-run succeeds at once; otherwise
the broadcast outcome decides. -/
def upvotePost (cfg : Config) (env : ActionEnv) : Bool :=
  if cfg.dry_run then true else env.upvoteOk

/-- `HiveEcuadorBot.process_post` of main.py: validate; on failure stop
with no state change; on success attempt comment, transfer and upvote
each on its own, record exactly what succeeded, and add the day's
deltas. -/
def processPost (cfg : Config) (env : ActionEnv) (today : String) (db : DB)
    (post : Post) : Bool × DB :=
  let validation := (validatePost cfg.required_metadata post).1
  if validation.is_valid then
    let commented := sendWelcomeComment cfg env
    let hbd_sent : ℚ := if sendHbdTransfer cfg env db today then cfg.transfer_amount else 0
    let upvoted := upvotePost cfg env
    let db1 := recordProcessedPost db post.author post.permlink hbd_sent upvoted commented
    let db2 := updateDailyStats db1 today 1 hbd_sent (if upvoted then 1 else 0) 0
    (true, db2)
  else (false, db)

/-- `HiveEcuadorBot.process_post` of main_advanced.py: same shape, but
the transfer and the upvote are attempted only inside `if commented:` —
a failed comment skips both. -/
def processPostAdv (cfg : Config) (env : ActionEnv) (today : String) (db : DB)
    (post : Post) : Bool × DB :=
  let validation := validatePostAdv cfg.required_metadata post
  if validation.is_valid then
    let commented := sendWelcomeComment cfg env
    let hbd_sent : ℚ :=
      if commented then
        (if sendHbdTransfer cfg env db today then cfg.transfer_amount else 0)
      else 0
    let upvoted := if commented then upvotePost cfg env else false
    let db1 := recordProcessedPost db post.author post.permlink hbd_sent upvoted commented
    let db2 := updateDailyStats db1 today 1 hbd_sent (if upvoted then 1 else 0) 0
    (true, db2)
  else (false, db)

/-- One raw feed entry returned by `bridge.get_ranked_posts`, carrying
the fields `monitor_community` copies; `created` is the entry's creation
time in epoch seconds. -/
structure RawPost where
  author : String
  permlink : String
  title : String
  body : String
  created : Int
  json_metadata : MetadataSrc
  extensions : List Extension
  beneficiaries : List Beneficiary
deriving DecidableEq, Repr

/-- The filtering of `HiveEcuadorBot.monitor_community` (main.py):
skip entries already recorded in `processed_posts`, skip entries older
than 24 hours (86400 seconds) relative to `now`, and build the candidate
post dict for the rest, in feed order. -/
def monitorCommunity (db : DB) (now : Int) (response : List RawPost) : List Post :=
  response.filterMap (fun rp =>
    if isPostProcessed db rp.author rp.permlink then none
    else if now - rp.created > 86400 then none
    else some ⟨rp.author, rp.permlink, rp.title, rp.body, rp.created,
               rp.json_metadata, rp.extensions, rp.beneficiaries⟩)

/-- One call's deltas for `update_daily_stats`. -/
structure Delta where
  posts_processed : Nat
  hbd_sent : ℚ
  upvotes_given : Nat
  errors : Nat
deriving DecidableEq, Repr

/-- A finite sequence of `update_daily_stats` calls on the same date. -/
def applyDeltas (db : DB) (today : String) (ds : List Delta) : DB :=
  ds.foldl (fun d x =>
    updateDailyStats d today x.posts_processed x.hbd_sent x.upvotes_given x.errors) db

/-- Sum of the `posts_processed` deltas of a call sequence. -/
def sumPP (ds : List Delta) : Nat := (ds.map Delta.posts_processed).sum

/-- Sum of the `hbd_sent` deltas of a call sequence. -/
def sumHbd (ds : List Delta) : ℚ := (ds.map Delta.hbd_sent).sum

/-- Sum of the `upvotes_given` deltas of a call sequence. -/
def sumUpv (ds : List Delta) : Nat := (ds.map Delta.upvotes_given).sum

/-- Sum of the `errors` deltas of a call sequence. -/
def sumErr (ds : List Delta) : Nat := (ds.map Delta.errors).sum

/-- Number of calls in a sequence that carry a positive transferred
amount — exactly the calls that add 1 to `transfer_count`. -/
def countPositive (ds : List Delta) : Nat :=
  (ds.filter (fun x => decide (0 < x.hbd_sent))).length

/-- A run of the poll loop's processing phase over a sequence of posts,
each with the external outcomes its actions would report. -/
def processSeq (cfg : Config) (today : String) (db : DB)
    (steps : List (Post × ActionEnv)) : DB :=
  steps.foldl (fun d step => (processPost cfg step.2 today d step.1).2) db

/-- Number of rows of a processed-posts table carrying a given key. -/
def countKey (l : List ProcRow) (author permlink : String) : Nat :=
  (l.filter (keyMatches author permlink)).length

/-- At most one row per `(author, permlink)` key — the UNIQUE constraint. -/
def KeyUnique (l : List ProcRow) : Prop :=
  ∀ author permlink, countKey l author permlink ≤ 1

/-- First row with the given key, as a SELECT by key. -/
def findProcessed : List ProcRow → String → String → Option ProcRow
  | [], _, _ => none
  | r :: rest, a, p => if keyMatches a p r then some r else findProcessed rest a p

/-! ### Which requirement checks a post violates

These predicates restate, independently of the reason-list construction,
when each of the seven checks of §4.1 is violated by a (requirements,
post, parsed metadata) triple. -/

/-- The app requirement is active (present and truthy) and the metadata
app differs. -/
def appBad (req : Requirements) (m : Metadata) : Bool :=
  match req.app with
  | none => false
  | some a => a != "" && m.app != some a

/-- The developer requirement is active and the metadata developer
differs. -/
def developerBad (req : Requirements) (m : Metadata) : Bool :=
  match req.developer with
  | none => false
  | some d => d != "" && m.developer != some d

/-- The country requirement is active and the metadata country differs. -/
def countryBad (req : Requirements) (m : Metadata) : Bool :=
  match req.country with
  | none => false
  | some c => c != "" && m.country != some c

/-- Some required tag is absent from the post's tag list. -/
def tagsBad (req : Requirements) (m : Metadata) : Bool :=
  req.tags.any (fun t => !((m.tags.getD []).contains t))

/-- Some required beneficiary pair has no exact match in the merged
list. -/
def beneficiariesBad (required merged : List Beneficiary) : Bool :=
  required.any (fun rb => !(merged.any (fun pb => beneficiaryMatches pb rb)))

/-- Some required metadata field is absent or falsy. -/
def fieldsBad (req : Requirements) (m : Metadata) : Bool :=
  req.required_fields.any (fun f => !(m.hasTruthy f))

/-- The body is below the 100-character minimum. -/
def bodyBad (post : Post) : Bool :=
  post.body.length < 100

/-- How many of the seven checks the post violates (main.py merge). -/
def violatedCount (req : Requirements) (post : Post) (m : Metadata) : Nat :=
  (if appBad req m then 1 else 0) + (if developerBad req m then 1 else 0)
    + (if tagsBad req m then 1 else 0)
    + (if beneficiariesBad req.beneficiaries (mergedBeneficiaries post m) then 1 else 0)
    + (if countryBad req m then 1 else 0) + (if fieldsBad req m then 1 else 0)
    + (if bodyBad post then 1 else 0)

/-! ### Concrete fixtures used to evaluate the definitions -/

/-- A requirement set with every optional check absent. -/
def reqEasy : Requirements := ⟨none, none, [], [], none, []⟩

/-- The requirement set of the shipped configuration (module docstring of
main.py). -/
def reqFull : Requirements :=
  ⟨some "checkinecuador/1.0.0", some "menobass", ["introduceyourself", "checkin"],
   [⟨some "hiveecuador", some 8000⟩], some "Ecuador", ["onboarder", "image"]⟩

/-- A metadata mapping with no keys of interest. -/
def metaEmpty : Metadata := ⟨none, none, none, none, none, []⟩

/-- A body long enough for the 100-character minimum. -/
def longBody : String := String.mk (List.replicate 120 'x')

/-- A post that passes validation against `reqEasy`. -/
def postOk1 : Post := ⟨"alice", "intro-1", "t", longBody, 0, .inline metaEmpty, [], []⟩

/-- A second passing post with a distinct key. -/
def postOk2 : Post := { postOk1 with author := "bob", permlink := "intro-2" }

/-- A post failing validation (body far below 100 characters). -/
def postShort : Post := { postOk1 with body := "hi" }

/-- A post whose metadata string fails JSON parsing. -/
def postNoParse : Post := { postOk1 with json_metadata := .text none }

/-- The community beneficiary required by the shipped configuration. -/
def benHive : Beneficiary := ⟨some "hiveecuador", some 8000⟩

/-- A post whose inline metadata holds a `beneficiaries` key (here an
empty list) while the direct field carries the community beneficiary:
the aliasing case of `validate_post`. -/
def postAliased : Post :=
  ⟨"carla", "hola", "t", longBody, 0, .inline ⟨none, none, none, some [], none, []⟩,
   [], [benHive]⟩

/-- A metadata mapping violating the app, tag and body checks of
`reqFull` while satisfying the rest. -/
def metaBad : Metadata :=
  ⟨some "other/1.0", some "menobass", some ["checkin"], some [benHive], some "Ecuador",
   [("onboarder", true), ("image", true)]⟩

/-- A post carrying `metaBad` and a 2-character body. -/
def postBad : Post := ⟨"dora", "hello", "t", "hi", 0, .inline metaBad, [], []⟩

/-- An empty database. -/
def db0 : DB := ⟨[], [], []⟩

/-- A database whose transfer table already shows one transfer on
2024-01-01. -/
def dbCap : DB := ⟨[], [], [("2024-01-01", ⟨1, 1⟩)]⟩

/-- A database with one processed post. -/
def dbOne : DB := ⟨[⟨"alice", "intro-1", 1, true, true⟩], [], []⟩

/-- External outcomes where every action reports success and the balance
is ample. -/
def envAll : ActionEnv := ⟨true, true, true, 100⟩

/-- External outcomes where the comment broadcast fails while transfer
and upvote would succeed. -/
def envNoComment : ActionEnv := ⟨false, true, true, 100⟩

/-- A dry-run configuration with a daily cap of one transfer. -/
def cfgDry : Config := ⟨true, 1, 5, 1, reqEasy⟩

/-- A real-mode configuration with a daily cap of ten transfers. -/
def cfgReal : Config := ⟨false, 10, 5, 1, reqEasy⟩

/-! ### Helper lemmas about the store operations -/

/-- Looking a key up in a concatenation inspects the left part first. -/
theorem getRow_append {β : Type} (k : String) (l1 l2 : List (String × β)) :
    getRow k (l1 ++ l2) = match getRow k l1 with
      | some v => some v
      | none => getRow k l2 := by
  induction l1 with
  | nil => simp [getRow]
  | cons kv rest ih =>
    cases h : (kv.1 == k) with
    | true => simp [getRow, h]
    | false => simp [getRow, h, ih]

/-- Rows whose key differs from `k` never answer a lookup for `k`. -/
theorem getRow_filter_self {β : Type} (k : String) (l : List (String × β)) :
    getRow k (l.filter (fun kv => kv.1 != k)) = none := by
  induction l with
  | nil => rfl
  | cons kv rest ih =>
    cases h : (kv.1 == k) with
    | true => simpa [List.filter_cons, bne, h] using ih
    | false => simpa [List.filter_cons, bne, h, getRow] using ih

/-- An `INSERT OR REPLACE` makes the inserted value the one a lookup for
its key returns. -/
theorem getRow_setRow_self {β : Type} (k : String) (v : β) (l : List (String × β)) :
    getRow k (setRow k v l) = some v := by
  rw [setRow, getRow_append, getRow_filter_self]
  simp [getRow]

/-- `update_daily_stats` leaves the processed-posts table alone. -/
theorem processed_update (db : DB) (today : String) (pp : Nat) (hbd : ℚ)
    (upv errs : Nat) :
    (updateDailyStats db today pp hbd upv errs).processed = db.processed := rfl

/-- `record_processed_post` leaves the stats table alone. -/
theorem stats_record (db : DB) (a p : String) (h : ℚ) (u c : Bool) :
    (recordProcessedPost db a p h u c).stats = db.stats := rfl

/-- `record_processed_post` leaves the transfers table alone. -/
theorem transfers_record (db : DB) (a p : String) (h : ℚ) (u c : Bool) :
    (recordProcessedPost db a p h u c).transfers = db.transfers := rfl

/-- Effect of one `update_daily_stats` call on the day's stats row. -/
theorem statsOf_update (db : DB) (today : String) (pp : Nat) (hbd : ℚ)
    (upv errs : Nat) :
    statsOf (updateDailyStats db today pp hbd upv errs) today
      = addStats (statsOf db today) pp hbd upv errs := by
  simp [statsOf, updateDailyStats, getRow_setRow_self]

/-- Effect of one `update_daily_stats` call on the day's transfers row. -/
theorem transferOf_update (db : DB) (today : String) (pp : Nat) (hbd : ℚ)
    (upv errs : Nat) :
    transferOf (updateDailyStats db today pp hbd upv errs) today
      = ⟨(transferOf db today).transfer_count + (if 0 < hbd then 1 else 0),
         (transferOf db today).total_amount + hbd⟩ := by
  simp [transferOf, updateDailyStats, getRow_setRow_self]

/-- The count read by the gate is the transfers row's counter. -/
theorem transferCount_eq (db : DB) (d : String) :
    transferCount db d = (transferOf db d).transfer_count := by
  unfold transferCount transferOf
  cases getRow d db.transfers <;> rfl

/-- Effect of one `update_daily_stats` call on the day's transfer count. -/
theorem transferCount_update (db : DB) (today : String) (pp : Nat) (hbd : ℚ)
    (upv errs : Nat) :
    transferCount (updateDailyStats db today pp hbd upv errs) today
      = transferCount db today + (if 0 < hbd then 1 else 0) := by
  rw [transferCount_eq, transferOf_update, transferCount_eq]

/-- `record_processed_post` does not change any transfer count. -/
theorem transferCount_record (db : DB) (a p : String) (h : ℚ) (u c : Bool)
    (d : String) :
    transferCount (recordProcessedPost db a p h u c) d = transferCount db d := rfl

/-- Key search in a concatenation of processed-post rows. -/
theorem findProcessed_append (l1 l2 : List ProcRow) (a p : String) :
    findProcessed (l1 ++ l2) a p = match findProcessed l1 a p with
      | some r => some r
      | none => findProcessed l2 a p := by
  induction l1 with
  | nil => simp [findProcessed]
  | cons r rest ih =>
    cases h : keyMatches a p r with
    | true => simp [findProcessed, h]
    | false => simp [findProcessed, h, ih]

/-- Rows surviving the replace-filter never match the replaced key. -/
theorem findProcessed_filter_not (l : List ProcRow) (a p : String) :
    findProcessed (l.filter (fun r => !(keyMatches a p r))) a p = none := by
  induction l with
  | nil => rfl
  | cons r rest ih =>
    cases h : keyMatches a p r with
    | true => simpa [List.filter_cons, h] using ih
    | false => simpa [List.filter_cons, h, findProcessed] using ih

/-- A row always matches its own key. -/
theorem keyMatches_self (a p : String) (h : ℚ) (u c : Bool) :
    keyMatches a p ⟨a, p, h, u, c⟩ = true := by
  simp [keyMatches]

/-- After `record_processed_post`, looking the key up yields exactly the
written row. -/
theorem findProcessed_record (db : DB) (a p : String) (h : ℚ) (u c : Bool) :
    findProcessed (recordProcessedPost db a p h u c).processed a p
      = some ⟨a, p, h, u, c⟩ := by
  show findProcessed
    (db.processed.filter (fun r => !(keyMatches a p r)) ++ [⟨a, p, h, u, c⟩]) a p
      = some ⟨a, p, h, u, c⟩
  rw [findProcessed_append, findProcessed_filter_not]
  simp [findProcessed, keyMatches_self]

/-- The replace-filter removes every row matching the key. -/
theorem filter_key_filter_not (l : List ProcRow) (a p : String) :
    (l.filter (fun r => !(keyMatches a p r))).filter (keyMatches a p) = [] := by
  induction l with
  | nil => rfl
  | cons r rest ih =>
    cases h : keyMatches a p r with
    | true => simp [List.filter_cons, h, ih]
    | false => simp [List.filter_cons, h, ih]

/-- After `record_processed_post`, the written key has exactly one row. -/
theorem countKey_record_self (db : DB) (a p : String) (h : ℚ) (u c : Bool) :
    countKey (recordProcessedPost db a p h u c).processed a p = 1 := by
  show ((db.processed.filter (fun r => !(keyMatches a p r))
      ++ [(⟨a, p, h, u, c⟩ : ProcRow)]).filter (keyMatches a p)).length = 1
  rw [List.filter_append, filter_key_filter_not]
  simp [keyMatches_self]

/-- After `record_processed_post`, every other key has no more rows than
before. -/
theorem countKey_record_other (db : DB) (a p a2 p2 : String) (h : ℚ) (u c : Bool)
    (hne : ¬(a2 = a ∧ p2 = p)) :
    countKey (recordProcessedPost db a p h u c).processed a2 p2
      ≤ countKey db.processed a2 p2 := by
  have hrow : keyMatches a2 p2 ⟨a, p, h, u, c⟩ = false := by
    by_cases h1 : a = a2
    · by_cases h2 : p = p2
      · exact absurd ⟨h1.symm, h2.symm⟩ hne
      · simp [keyMatches, h2]
    · simp [keyMatches, h1]
  show ((db.processed.filter (fun r => !(keyMatches a p r))
      ++ [(⟨a, p, h, u, c⟩ : ProcRow)]).filter (keyMatches a2 p2)).length
      ≤ countKey db.processed a2 p2
  rw [List.filter_append]
  simp only [List.filter_cons, hrow, List.filter_nil, List.length_append,
    List.length_nil, Nat.add_zero]
  exact ((List.filter_sublist _).filter _).length_le

/-- No post delivered by the dedupe filter is already recorded. -/
theorem monitor_not_processed (db : DB) (now : Int) (response : List RawPost) :
    ∀ post ∈ monitorCommunity db now response,
      isPostProcessed db post.author post.permlink = false := by
  intro post hmem
  rw [monitorCommunity, List.mem_filterMap] at hmem
  obtain ⟨rp, _, hf⟩ := hmem
  by_cases h1 : isPostProcessed db rp.author rp.permlink
  · rw [if_pos h1] at hf
    exact absurd hf (by simp)
  · rw [if_neg h1] at hf
    by_cases h2 : now - rp.created > 86400
    · rw [if_pos h2] at hf
      exact absurd hf (by simp)
    · rw [if_neg h2] at hf
      have hpost : post = ⟨rp.author, rp.permlink, rp.title, rp.body, rp.created,
          rp.json_metadata, rp.extensions, rp.beneficiaries⟩ :=
        (Option.some_injective _ hf).symm
      rw [hpost]
      simpa using h1

/-- A successful non-dry transfer implies the cap gate was open. -/
theorem sendHbdTransfer_cap (cfg : Config) (env : ActionEnv) (db : DB) (today : String)
    (hdr : cfg.dry_run = false) (hs : sendHbdTransfer cfg env db today = true) :
    transferCount db today < cfg.max_daily_transfers := by
  rw [sendHbdTransfer, hdr] at hs
  simp only [Bool.false_eq_true, if_false] at hs
  by_cases hc : canSendTransferToday db today cfg.max_daily_transfers
  · rw [canSendTransferToday] at hc
    exact of_decide_eq_true hc
  · rw [Bool.not_eq_true] at hc
    rw [hc] at hs
    simp at hs

/-! ### Helper lemmas about the validation checks -/

/-- The app check emits exactly one reason when violated, none
otherwise. -/
theorem checkApp_length (req : Requirements) (m : Metadata) :
    (checkApp req m).length = if appBad req m then 1 else 0 := by
  unfold checkApp appBad
  cases req.app with
  | none => rfl
  | some a => cases h : (a != "" && m.app != some a) <;> simp [h]

/-- The developer check emits exactly one reason when violated. -/
theorem checkDeveloper_length (req : Requirements) (m : Metadata) :
    (checkDeveloper req m).length = if developerBad req m then 1 else 0 := by
  unfold checkDeveloper developerBad
  cases req.developer with
  | none => rfl
  | some d => cases h : (d != "" && m.developer != some d) <;> simp [h]

/-- The country check emits exactly one reason when violated. -/
theorem checkCountry_length (req : Requirements) (m : Metadata) :
    (checkCountry req m).length = if countryBad req m then 1 else 0 := by
  unfold checkCountry countryBad
  cases req.country with
  | none => rfl
  | some c => cases h : (c != "" && m.country != some c) <;> simp [h]

/-- A tag violation exists exactly when the missing-tag list is
non-empty. -/
theorem tagsBad_eq (req : Requirements) (m : Metadata) :
    tagsBad req m = !(missingTags req.tags (m.tags.getD [])).isEmpty := by
  unfold tagsBad missingTags
  induction req.tags with
  | nil => rfl
  | cons t rest ih =>
    cases h : ((m.tags.getD []).contains t) with
    | true =>
      have h2 : t ∈ m.tags.getD [] := by simpa using h
      simpa [List.filter_cons, List.any_cons, h2] using ih
    | false =>
      have h2 : ¬(t ∈ m.tags.getD []) := by simpa using h
      simp [List.filter_cons, List.any_cons, h2]

/-- The tag check emits one single reason when violated, covering all
missing tags together. -/
theorem checkTags_length (req : Requirements) (m : Metadata) :
    (checkTags req m).length = if tagsBad req m then 1 else 0 := by
  unfold checkTags
  rw [tagsBad_eq]
  cases h : (missingTags req.tags (m.tags.getD [])).isEmpty <;> simp [h]

/-- The beneficiary check emits one reason per missing required pair. -/
theorem checkBeneficiaries_length (required merged : List Beneficiary) :
    (checkBeneficiaries required merged).length
      = (missingBeneficiaries required merged).length := by
  simp [checkBeneficiaries]

/-- A beneficiary violation exists exactly when some required pair is
missing. -/
theorem beneficiariesBad_eq (required merged : List Beneficiary) :
    beneficiariesBad required merged = !(missingBeneficiaries required merged).isEmpty := by
  unfold beneficiariesBad missingBeneficiaries
  induction required with
  | nil => rfl
  | cons rb rest ih =>
    cases h : (merged.any (fun pb => beneficiaryMatches pb rb)) with
    | true => simp [List.filter_cons, List.any_cons, h, ih]
    | false => simp [List.filter_cons, List.any_cons, h]

/-- A beneficiary violation contributes at least one reason. -/
theorem beneficiariesBad_le (required merged : List Beneficiary) :
    (if beneficiariesBad required merged then 1 else 0)
      ≤ (checkBeneficiaries required merged).length := by
  rw [checkBeneficiaries_length, beneficiariesBad_eq]
  cases h : (missingBeneficiaries required merged) with
  | nil => simp
  | cons x xs => simp

/-- A required-fields violation contributes at least one reason. -/
theorem fieldsBad_le (req : Requirements) (m : Metadata) :
    (if fieldsBad req m then 1 else 0) ≤ (checkRequiredFields req m).length := by
  unfold fieldsBad checkRequiredFields
  induction req.required_fields with
  | nil => simp
  | cons f rest ih =>
    cases h : (m.hasTruthy f) with
    | true => simpa [List.any_cons, List.filterMap_cons, h] using ih
    | false => simp [List.any_cons, List.filterMap_cons, h]

/-- The body check emits exactly one reason when violated. -/
theorem checkBody_length (post : Post) :
    (checkBody post).length = if bodyBad post then 1 else 0 := by
  unfold checkBody bodyBad
  by_cases h : post.body.length < 100 <;> simp [h]

/-- On parse success (either arrival shape), the reasons returned by
`validate_post` (main.py) are exactly the seven check segments in source
order. -/
theorem validatePost_reasons (req : Requirements) (post : Post) (m : Metadata)
    (hm : parsedMetadata post.json_metadata = some m) :
    (validatePost req post).1.reasons = reasonsFor req post m := by
  obtain ⟨a, p, t, b, cr, jm, ex, bs⟩ := post
  cases jm with
  | inline m2 =>
    obtain rfl : m2 = m := by simpa [parsedMetadata] using hm
    rfl
  | text o =>
    cases o with
    | none => simp [parsedMetadata] at hm
    | some m2 =>
      obtain rfl : m2 = m := by simpa [parsedMetadata] using hm
      rfl

/-! ### Helper lemmas about the counters and the processor -/

/-- Adding an all-zero delta is the identity. -/
theorem addStats_zero (s : StatsRow) : addStats s 0 0 0 0 = s := by
  cases s
  simp [addStats]

/-- Two added deltas combine componentwise. -/
theorem addStats_addStats (s : StatsRow) (p1 : Nat) (h1 : ℚ) (u1 e1 : Nat)
    (p2 : Nat) (h2 : ℚ) (u2 e2 : Nat) :
    addStats (addStats s p1 h1 u1 e1) p2 h2 u2 e2
      = addStats s (p1 + p2) (h1 + h2) (u1 + u2) (e1 + e2) := by
  cases s
  simp [addStats, Nat.add_assoc, add_assoc]

/-- The transfer-increment count of a call sequence, unfolded one call. -/
theorem countPositive_cons (d : Delta) (rest : List Delta) :
    countPositive (d :: rest)
      = (if 0 < d.hbd_sent then 1 else 0) + countPositive rest := by
  by_cases h : (0 : ℚ) < d.hbd_sent <;>
    simp [countPositive, List.filter_cons, h, Nat.add_comm]

/-- `record_processed_post` does not change any stats row. -/
theorem statsOf_record (db : DB) (a p : String) (h : ℚ) (u c : Bool) (d : String) :
    statsOf (recordProcessedPost db a p h u c) d = statsOf db d := rfl

/-- `record_processed_post` does not change any transfers row. -/
theorem transferOf_record (db : DB) (a p : String) (h : ℚ) (u c : Bool) (d : String) :
    transferOf (recordProcessedPost db a p h u c) d = transferOf db d := rfl

/-- One non-dry `process_post` run keeps the day's transfer count within
the cap. -/
theorem processPost_cap (cfg : Config) (env : ActionEnv) (today : String) (db : DB)
    (post : Post) (hdr : cfg.dry_run = false)
    (h : transferCount db today ≤ cfg.max_daily_transfers) :
    transferCount (processPost cfg env today db post).2 today
      ≤ cfg.max_daily_transfers := by
  by_cases hv : (validatePost cfg.required_metadata post).1.is_valid
  · by_cases hs : sendHbdTransfer cfg env db today
    · have hlt := sendHbdTransfer_cap cfg env db today hdr hs
      simp only [processPost, hv, hs, if_true, ite_true, transferCount_update,
        transferCount_record]
      by_cases ha : (0 : ℚ) < cfg.transfer_amount <;> simp [ha] <;> omega
    · rw [Bool.not_eq_true] at hs
      simp only [processPost, hv, hs, if_true, ite_true, Bool.false_eq_true,
        if_false, ite_false, transferCount_update, transferCount_record]
      simpa [lt_irrefl] using h
  · rw [Bool.not_eq_true] at hv
    simpa [processPost, hv] using h

/-- A whole processing phase in non-dry mode keeps the day's transfer
count within the cap. -/
theorem processSeq_cap (cfg : Config) (today : String)
    (steps : List (Post × ActionEnv)) :
    ∀ db : DB, cfg.dry_run = false →
      transferCount db today ≤ cfg.max_daily_transfers →
      transferCount (processSeq cfg today db steps) today
        ≤ cfg.max_daily_transfers := by
  induction steps with
  | nil => intro db _ h; exact h
  | cons s rest ih =>
    intro db hdr h
    exact ih ((processPost cfg s.2 today db s.1).2) hdr
      (processPost_cap cfg s.2 today db s.1 hdr h)

/-- On parse success, the validity flag is the emptiness of the reason
list. -/
theorem validatePost_valid (req : Requirements) (post : Post) (m : Metadata)
    (hm : parsedMetadata post.json_metadata = some m) :
    (validatePost req post).1.is_valid = (reasonsFor req post m).isEmpty := by
  obtain ⟨a, p, t, b, cr, jm, ex, bs⟩ := post
  cases jm with
  | inline m2 =>
    obtain rfl : m2 = m := by simpa [parsedMetadata] using hm
    rfl
  | text o =>
    cases o with
    | none => simp [parsedMetadata] at hm
    | some m2 =>
      obtain rfl : m2 = m := by simpa [parsedMetadata] using hm
      rfl

/-! ### The claims -/

/-- C2: validation in main.py is claimed side-effect-free, but when the
metadata arrives as a mapping already holding a `beneficiaries` key, the
merge extends the very list aliased inside the post: the post differs
after the call, its metadata now carries the direct beneficiary, and a
second call on the returned post mutates it again — two successive calls
do not see the same input. -/
theorem C2_validate_mutates_post :
    (validatePost reqEasy postAliased).2 ≠ postAliased
    ∧ (validatePost reqEasy postAliased).2.json_metadata
        = MetadataSrc.inline ⟨none, none, none, some [benHive], none, []⟩
    ∧ postAliased.json_metadata
        = MetadataSrc.inline ⟨none, none, none, some [], none, []⟩
    ∧ (validatePost reqEasy ((validatePost reqEasy postAliased).2)).2
        ≠ (validatePost reqEasy postAliased).2 := by
  decide

/-- C4: for every (post, requirements) pair whose metadata parses,
validation collects the checks in the fixed source order app →
developer → tags → beneficiaries → country → required fields → body
length without short-circuiting, emits at least one reason per violated
check (a single reason covering all missing tags together, one reason
per missing beneficiary pair), and is valid exactly when the reason
list is empty. -/
theorem C4_validation_order_and_completeness (req : Requirements) (post : Post)
    (m : Metadata) (hm : parsedMetadata post.json_metadata = some m) :
    ((validatePost req post).1.reasons
        = checkApp req m ++ checkDeveloper req m ++ checkTags req m
          ++ checkBeneficiaries req.beneficiaries (mergedBeneficiaries post m)
          ++ checkCountry req m ++ checkRequiredFields req m ++ checkBody post)
    ∧ ((validatePost req post).1.is_valid = true
        ↔ (validatePost req post).1.reasons = [])
    ∧ violatedCount req post m ≤ ((validatePost req post).1.reasons).length
    ∧ (checkTags req m).length = (if tagsBad req m then 1 else 0)
    ∧ (checkBeneficiaries req.beneficiaries (mergedBeneficiaries post m)).length
        = (missingBeneficiaries req.beneficiaries (mergedBeneficiaries post m)).length := by
  have hr := validatePost_reasons req post m hm
  refine ⟨hr, ?_, ?_, checkTags_length req m, checkBeneficiaries_length _ _⟩
  · rw [validatePost_valid req post m hm, hr]
    exact List.isEmpty_iff
  · rw [hr]
    unfold reasonsFor violatedCount
    simp only [List.length_append]
    have h1 := checkApp_length req m
    have h2 := checkDeveloper_length req m
    have h3 := checkTags_length req m
    have h4 := beneficiariesBad_le req.beneficiaries (mergedBeneficiaries post m)
    have h5 := checkCountry_length req m
    have h6 := fieldsBad_le req m
    have h7 := checkBody_length post
    omega

/-- Witness for C4: against the shipped requirement set, a post
violating the app, tag and body checks gets at least three reasons. -/
theorem C4_validation_order_and_completeness_witness :
    parsedMetadata postBad.json_metadata = some metaBad
    ∧ 3 ≤ ((validatePost reqFull postBad).1.reasons).length := by
  have h := C4_validation_order_and_completeness reqFull postBad metaBad rfl
  refine ⟨rfl, ?_⟩
  have hv : violatedCount reqFull postBad metaBad = 3 := by decide
  have hle := h.2.2.1
  omega

/-- C9: a metadata string that fails JSON parsing makes both validators
return invalid with exactly the single invalid-metadata reason, run no
other check, and leave the post untouched; the embedding is a total
function, mirroring that the code catches the decode error instead of
raising. -/
theorem C9_parse_failure_single_reason (req : Requirements) (post : Post)
    (h : post.json_metadata = MetadataSrc.text none) :
    validatePost req post = (⟨false, ["Invalid JSON metadata"], post⟩, post)
    ∧ validatePostAdv req post = ⟨false, ["Invalid JSON metadata"], post⟩ := by
  obtain ⟨a, p, t, b, cr, jm, ex, bs⟩ := post
  obtain rfl : jm = MetadataSrc.text none := by simpa using h
  exact ⟨rfl, rfl⟩

/-- Witness for C9 on a concrete unparseable-metadata post. -/
theorem C9_parse_failure_single_reason_witness :
    postNoParse.json_metadata = MetadataSrc.text none
    ∧ (validatePost reqFull postNoParse).1.reasons = ["Invalid JSON metadata"] := by
  have h := C9_parse_failure_single_reason reqFull postNoParse rfl
  exact ⟨rfl, by rw [h.1]⟩

/-- C10: a falsy (empty-string) app, developer or country requirement is
skipped entirely — validation of any post coincides with validation
under the requirement removed, in both variants, so an empty-string
requirement can never produce a mismatch reason. -/
theorem C10_falsy_requirement_skipped (req : Requirements) (post : Post) :
    validatePost { req with app := some "" } post
        = validatePost { req with app := none } post
    ∧ validatePost { req with developer := some "" } post
        = validatePost { req with developer := none } post
    ∧ validatePost { req with country := some "" } post
        = validatePost { req with country := none } post
    ∧ validatePostAdv { req with app := some "" } post
        = validatePostAdv { req with app := none } post
    ∧ validatePostAdv { req with developer := some "" } post
        = validatePostAdv { req with developer := none } post
    ∧ validatePostAdv { req with country := some "" } post
        = validatePostAdv { req with country := none } post := by
  obtain ⟨ra, rd, rt, rb, rc, rf⟩ := req
  obtain ⟨a, p, t, b, cr, jm, ex, bs⟩ := post
  cases jm with
  | inline m =>
    refine ⟨?_, ?_, ?_, ?_, ?_, ?_⟩ <;>
      simp [validatePost, validatePostAdv, reasonsFor, reasonsForAdv, checkApp,
        checkDeveloper, checkCountry, checkTags, checkRequiredFields, missingTags]
  | text o =>
    cases o with
    | none => exact ⟨rfl, rfl, rfl, rfl, rfl, rfl⟩
    | some m =>
      refine ⟨?_, ?_, ?_, ?_, ?_, ?_⟩ <;>
        simp [validatePost, validatePostAdv, reasonsFor, reasonsForAdv, checkApp,
          checkDeveloper, checkCountry, checkTags, checkRequiredFields, missingTags]

/-- Normal form of the two-gate decision. -/
theorem mayTransfer_eq (db : DB) (today : String) (cap : Nat) (balance minBalance : ℚ) :
    mayTransfer db today cap balance minBalance
      = (decide (transferCount db today < cap) && decide (minBalance ≤ balance)) := by
  unfold mayTransfer canSendTransferToday
  by_cases h1 : transferCount db today < cap
  · by_cases h2 : balance < minBalance
    · have h2a : ¬(minBalance ≤ balance) := not_le.mpr h2
      simp [h1, h2, h2a]
    · have h2a : minBalance ≤ balance := not_lt.mp h2
      simp [h1, h2, h2a]
  · simp [h1]

/-- C5: the pre-transfer gate passes exactly when the day's transfer
count is below the cap and the balance reaches the minimum; an absent
transfers row counts as zero transfers; once the count has reached the
cap the gate fails regardless of balance; and in non-dry mode
`send_hbd_transfer` succeeds exactly when the gate passes and the
broadcast succeeds. -/
theorem C5_transfer_gate (db : DB) (today : String) (cap : Nat)
    (balance minBalance : ℚ) :
    (mayTransfer db today cap balance minBalance = true
        ↔ (transferCount db today < cap ∧ minBalance ≤ balance))
    ∧ (getRow today db.transfers = none → transferCount db today = 0)
    ∧ (cap ≤ transferCount db today →
        mayTransfer db today cap balance minBalance = false)
    ∧ (∀ cfg env, cfg.dry_run = false → cfg.max_daily_transfers = cap →
        cfg.min_account_balance = minBalance → env.balance = balance →
        sendHbdTransfer cfg env db today
          = (mayTransfer db today cap balance minBalance && env.transferOk)) := by
  refine ⟨?_, ?_, ?_, ?_⟩
  · rw [mayTransfer_eq]
    simp
  · intro h
    simp [transferCount, h]
  · intro h
    rw [mayTransfer_eq]
    simp [not_lt.mpr h]
  · intro cfg env hdr hcap hmin hbal
    subst hcap; subst hmin; subst hbal
    rw [sendHbdTransfer, hdr, mayTransfer_eq]
    by_cases h1 : transferCount db today < cfg.max_daily_transfers
    · by_cases h2 : env.balance < cfg.min_account_balance
      · have h2a : ¬(cfg.min_account_balance ≤ env.balance) := not_le.mpr h2
        simp [canSendTransferToday, h1, h2, h2a]
      · have h2a : cfg.min_account_balance ≤ env.balance := not_lt.mp h2
        simp [canSendTransferToday, h1, h2, h2a]
    · simp [canSendTransferToday, h1]

/-- Witness for C5: with one transfer already recorded and a cap of one,
the gate refuses even at an ample balance. -/
theorem C5_transfer_gate_witness :
    mayTransfer dbCap "2024-01-01" 1 1000 0 = false :=
  (C5_transfer_gate dbCap "2024-01-01" 1 1000 0).2.2.1 (by decide)

/-- C6: for any call sequence of `update_daily_stats` on one date, the
stored row equals the componentwise sum of the individual deltas added
onto the prior row (an absent row starting from zero), and the day's
transfer count gains exactly one per call that carried a positive
amount. -/
theorem C6_additive_counters (ds : List Delta) (today : String) (db : DB) :
    statsOf (applyDeltas db today ds) today
      = addStats (statsOf db today) (sumPP ds) (sumHbd ds) (sumUpv ds) (sumErr ds)
    ∧ transferOf (applyDeltas db today ds) today
      = ⟨(transferOf db today).transfer_count + countPositive ds,
         (transferOf db today).total_amount + sumHbd ds⟩ := by
  induction ds generalizing db with
  | nil =>
    constructor
    · simp [applyDeltas, sumPP, sumHbd, sumUpv, sumErr, addStats_zero]
    · simp [applyDeltas, countPositive, sumHbd]
  | cons d rest ih =>
    have hstep := ih (updateDailyStats db today d.posts_processed d.hbd_sent
      d.upvotes_given d.errors)
    constructor
    · show statsOf (applyDeltas (updateDailyStats db today d.posts_processed
          d.hbd_sent d.upvotes_given d.errors) today rest) today = _
      rw [hstep.1, statsOf_update, addStats_addStats]
      simp [sumPP, sumHbd, sumUpv, sumErr]
    · show transferOf (applyDeltas (updateDailyStats db today d.posts_processed
          d.hbd_sent d.upvotes_given d.errors) today rest) today = _
      rw [hstep.2, transferOf_update, countPositive_cons]
      simp [sumHbd, Nat.add_assoc, add_assoc]

/-- C7: `record_processed_post` keeps at most one row per
`(author, permlink)` key — the written key ends with exactly one row,
holding the new values (last write wins) — and within a poll cycle the
dedupe filter never delivers a post whose key is already recorded. -/
theorem C7_key_unique_and_dedupe (db : DB) (hu : KeyUnique db.processed)
    (author permlink : String) (hbd : ℚ) (upvoted commented : Bool)
    (now : Int) (response : List RawPost) :
    countKey (recordProcessedPost db author permlink hbd upvoted commented).processed
        author permlink = 1
    ∧ KeyUnique (recordProcessedPost db author permlink hbd upvoted commented).processed
    ∧ findProcessed
        (recordProcessedPost db author permlink hbd upvoted commented).processed
        author permlink = some ⟨author, permlink, hbd, upvoted, commented⟩
    ∧ ∀ post ∈ monitorCommunity db now response,
        isPostProcessed db post.author post.permlink = false := by
  refine ⟨countKey_record_self db author permlink hbd upvoted commented, ?_,
    findProcessed_record db author permlink hbd upvoted commented,
    monitor_not_processed db now response⟩
  intro a2 p2
  by_cases hne : a2 = author ∧ p2 = permlink
  · obtain ⟨rfl, rfl⟩ := hne
    rw [countKey_record_self]
  · exact le_trans
      (countKey_record_other db author permlink a2 p2 hbd upvoted commented hne)
      (hu a2 p2)

/-- Witness for C7: rewriting the already-recorded key of a one-row
store still leaves exactly one row for it. -/
theorem C7_key_unique_and_dedupe_witness :
    countKey (recordProcessedPost dbOne "alice" "intro-1" 2 false true).processed
      "alice" "intro-1" = 1 := by
  have hu : KeyUnique dbOne.processed := by
    intro a p
    exact le_trans (List.length_filter_le _ _) (by decide)
  exact (C7_key_unique_and_dedupe dbOne hu "alice" "intro-1" 2 false true 0 []).1

/-- C8: a post that fails validation leaves either processor at once
with result false and a byte-for-byte unchanged store: no record, no
counter movement. -/
theorem C8_invalid_post_no_write (cfg : Config) (env : ActionEnv) (today : String)
    (db : DB) (post : Post)
    (h1 : (validatePost cfg.required_metadata post).1.is_valid = false)
    (h2 : (validatePostAdv cfg.required_metadata post).is_valid = false) :
    processPost cfg env today db post = (false, db)
    ∧ processPostAdv cfg env today db post = (false, db) := by
  constructor
  · simp [processPost, h1]
  · simp [processPostAdv, h2]

/-- Witness for C8 on a post with a too-short body. -/
theorem C8_invalid_post_no_write_witness :
    processPost cfgReal envAll "2024-01-01" db0 postShort = (false, db0) :=
  (C8_invalid_post_no_write cfgReal envAll "2024-01-01" db0 postShort
    (by decide) (by decide)).1

/-- C1 counterexample: in the advanced variant, with a failing comment
broadcast but transfer and upvote outcomes that would succeed (valid
post, open cap, ample balance, real mode), the processor records no
upvote and no transferred amount — the comment failure blocked both, so
commented = false with upvoted = true and a positive amount is not
reached there. -/
theorem C1_counterexample :
    envNoComment.commentOk = false
    ∧ envNoComment.transferOk = true
    ∧ envNoComment.upvoteOk = true
    ∧ cfgReal.dry_run = false
    ∧ (validatePostAdv cfgReal.required_metadata postOk1).is_valid = true
    ∧ canSendTransferToday db0 "2024-01-01" cfgReal.max_daily_transfers = true
    ∧ cfgReal.min_account_balance ≤ envNoComment.balance
    ∧ (processPostAdv cfgReal envNoComment "2024-01-01" db0 postOk1).2.processed
        = [⟨"alice", "intro-1", 0, false, false⟩] := by
  decide

/-- C1 (amended to the basic variant): `process_post` of main.py
attempts the three actions independently — with a failing comment but
succeeding transfer and upvote, the record shows commented = false,
upvoted = true and the positive transfer amount, and the day's
aggregates still gain the amount and the upvote. -/
theorem C1_actions_independent_basic (cfg : Config) (env : ActionEnv) (today : String)
    (db : DB) (post : Post)
    (hv : (validatePost cfg.required_metadata post).1.is_valid = true)
    (hdr : cfg.dry_run = false)
    (hc : env.commentOk = false) (ht : env.transferOk = true) (hu : env.upvoteOk = true)
    (hcap : transferCount db today < cfg.max_daily_transfers)
    (hbal : cfg.min_account_balance ≤ env.balance)
    (hamt : 0 < cfg.transfer_amount) :
    (processPost cfg env today db post).1 = true
    ∧ findProcessed (processPost cfg env today db post).2.processed
        post.author post.permlink
        = some ⟨post.author, post.permlink, cfg.transfer_amount, true, false⟩
    ∧ statsOf (processPost cfg env today db post).2 today
        = addStats (statsOf db today) 1 cfg.transfer_amount 1 0
    ∧ transferOf (processPost cfg env today db post).2 today
        = ⟨(transferOf db today).transfer_count + 1,
           (transferOf db today).total_amount + cfg.transfer_amount⟩ := by
  have hsend : sendHbdTransfer cfg env db today = true := by
    rw [sendHbdTransfer, hdr]
    have h1 : canSendTransferToday db today cfg.max_daily_transfers = true := by
      simpa [canSendTransferToday] using hcap
    have h2 : ¬(env.balance < cfg.min_account_balance) := not_lt.mpr hbal
    simp [h1, h2, ht]
  have hcom : sendWelcomeComment cfg env = false := by
    rw [sendWelcomeComment, hdr]
    simpa using hc
  have hupv : upvotePost cfg env = true := by
    rw [upvotePost, hdr]
    simpa using hu
  have hrun : processPost cfg env today db post
      = (true, updateDailyStats
          (recordProcessedPost db post.author post.permlink cfg.transfer_amount
            true false)
          today 1 cfg.transfer_amount 1 0) := by
    simp [processPost, hv, hsend, hcom, hupv]
  rw [hrun]
  refine ⟨rfl, ?_, ?_, ?_⟩
  · exact findProcessed_record db post.author post.permlink cfg.transfer_amount
      true false
  · rw [statsOf_update, statsOf_record]
  · rw [transferOf_update, transferOf_record, if_pos hamt]

/-- Witness for C1 on a concrete run of the basic processor with a
failing comment. -/
theorem C1_actions_independent_basic_witness :
    cfgReal.dry_run = false
    ∧ findProcessed
        (processPost cfgReal envNoComment "2024-01-01" db0 postOk1).2.processed
        "alice" "intro-1" = some ⟨"alice", "intro-1", 1, true, false⟩ := by
  have h := C1_actions_independent_basic cfgReal envNoComment "2024-01-01" db0 postOk1
    (by decide) rfl rfl rfl rfl (by decide) (by decide) (by decide)
  exact ⟨rfl, h.2.1⟩

/-- C3 counterexample: in dry-run mode `send_hbd_transfer` returns
success before any cap check and `transfer_count` still increments, so
with a cap of one, two posts processed on one day drive the recorded
count to two — above the cap. -/
theorem C3_counterexample :
    cfgDry.dry_run = true
    ∧ cfgDry.max_daily_transfers = 1
    ∧ transferCount (processSeq cfgDry "2024-01-01" db0
        [(postOk1, envAll), (postOk2, envAll)]) "2024-01-01" = 2 := by
  decide

/-- C3 (amended to non-dry operation): in real mode a transfer is sent
only after the cap gate passed on the current count, and over any
processing sequence a day's transfer count that starts within the cap
stays within it. -/
theorem C3_cap_respected_real_mode (cfg : Config) (env : ActionEnv) (today : String)
    (db : DB) (steps : List (Post × ActionEnv)) (hdr : cfg.dry_run = false) :
    (sendHbdTransfer cfg env db today = true →
        transferCount db today < cfg.max_daily_transfers)
    ∧ (transferCount db today ≤ cfg.max_daily_transfers →
        transferCount (processSeq cfg today db steps) today
          ≤ cfg.max_daily_transfers) :=
  ⟨sendHbdTransfer_cap cfg env db today hdr,
   fun h => processSeq_cap cfg today steps db hdr h⟩

/-- Witness for C3 on a concrete real-mode run. -/
theorem C3_cap_respected_real_mode_witness :
    transferCount (processSeq cfgReal "2024-01-01" db0 [(postOk1, envAll)])
        "2024-01-01" ≤ cfgReal.max_daily_transfers :=
  (C3_cap_respected_real_mode cfgReal envAll "2024-01-01" db0
    [(postOk1, envAll)] rfl).2 (by decide)

end Checkinbot
